import Mathlib

/-!
Shallow embedding of the kivy-audioplayer repository
(`src/kivy_audioplayer/audioplayer.py`, `_conversions.py`, `_utils.py`).

Modelling conventions:
* A kivy `Sound` handle is an opaque record with an identity, a source
  string and a volume; the external decode engine (`SoundLoader.load`)
  is passed in as a function `String → Option Sound` (it returns `None`
  when no loader accepts the source, exactly as kivy does).
* Python numbers relevant to the claims (volumes, positions, intervals)
  are modelled as rationals, with exact comparisons.
* Each method of `AudioPlayer` becomes a function `Player → Res`, where
  `Res` carries the mutated player, the list of side effects performed
  on handles/clock, and an optional uncaught Python exception.  A raised
  exception aborts the remaining statements of the method but keeps all
  mutations already performed — exactly Python's semantics for attribute
  mutation followed by an uncaught raise.
* The mutual recursion `play` ↔ `_jump_to_index` (the loop-around path)
  is modelled with explicit fuel; exhausting the fuel yields
  `Err.recursionError`, the counterpart of Python's `RecursionError`
  when the interpreter's recursion limit is hit.
-/

namespace KAP

/-- A kivy `Sound` handle: identity, source path and per-handle volume. -/
structure Sound where
  hid : Nat
  source : String
  volume : ℚ
deriving DecidableEq, Repr

/-- Uncaught Python exceptions that the embedded methods can raise. -/
inductive Err
  | attributeError
  | indexError
  | typeError
  | valueError
  | recursionError
deriving DecidableEq, Repr

/-- Observable side effects performed on handles and on the estimation clock. -/
inductive Ev
  | playH (hid : Nat)
  | stopH (hid : Nat)
  | seekH (hid : Nat) (pos : ℚ)
  | unloadH (hid : Nat)
  | clockStart
  | clockCancel
deriving DecidableEq, Repr

/-- The mutable state of an `AudioPlayer` instance (fields mirror
`AudioPlayer.__init__`). `clock_event` records whether `self._clock_event`
is a clock object (`true`) or still `None` (`false`). -/
structure Player where
  external_stop_call : Bool
  queue_progress_index : Int
  queue : List Sound
  volume : ℚ
  loop : Bool
  estimate_position : Bool
  interval : ℚ
  pos_estimate : ℚ
  state : String
  clock_event : Bool
  current_sound_obj : Option Sound
deriving DecidableEq, Repr

/-- Result of running one method: the mutated player, the effects emitted
(in order), and the uncaught exception if one escaped. -/
structure Res where
  p : Player
  evs : List Ev
  err : Option Err
deriving DecidableEq, Repr

/-- Normal completion with effects. -/
def Res.mk' (p : Player) (evs : List Ev) : Res := ⟨p, evs, none⟩

/-- Normal completion without effects. -/
def Res.pure (p : Player) : Res := ⟨p, [], none⟩

/-- A raise: mutations so far persist, later statements do not run. -/
def Res.fail (p : Player) (e : Err) : Res := ⟨p, [], some e⟩

/-- Sequencing of statements: a pending exception skips the continuation. -/
def Res.then (r : Res) (f : Player → Res) : Res :=
  match r.err with
  | some _ => r
  | none =>
    let s := f r.p
    ⟨s.p, r.evs ++ s.evs, s.err⟩

/-- Python list subscript `l[i]`: non-negative indices are bounds-checked,
negative indices address from the end (`l[len+i]`), out-of-range is `None`
here (an `IndexError` at the call sites). -/
def pyGet (l : List Sound) (i : Int) : Option Sound :=
  if 0 ≤ i then l.get? i.toNat
  else if i.natAbs ≤ l.length then l.get? (l.length - i.natAbs)
  else none

/-- Python slice `l[k:]` (negative starts clamp from the end). -/
def pySliceFrom (l : List Sound) (k : Int) : List Sound :=
  if 0 ≤ k then l.drop k.toNat
  else l.drop (l.length - min l.length k.natAbs)

/-- `AudioPlayer._update_pos_estimate`. -/
def update_pos_estimate (position : ℚ) (p : Player) : Player :=
  { p with pos_estimate := position }

/-- `AudioPlayer._cancel_clock`: `self._clock_event.cancel()` raises an
`AttributeError` when `self._clock_event` is still `None`. -/
def cancel_clock (p : Player) : Res :=
  if p.clock_event then Res.mk' p [Ev.clockCancel]
  else Res.fail p Err.attributeError

/-- `AudioPlayer._start_clock`. -/
def start_clock (p : Player) : Res :=
  Res.mk' { p with clock_event := true } [Ev.clockStart]

/-- `AudioPlayer._initialize_estimation` (the `on_play` handler). -/
def begin_estimation (p : Player) : Res :=
  if p.estimate_position then start_clock p else Res.pure p

/-- `AudioPlayer.stop`: sets the external-stop flag, stops the current
handle (an `AttributeError` on `None` leaves the flag set), records the
`"stop"` state and clears the flag. -/
def stop (p : Player) : Res :=
  let p1 := { p with external_stop_call := true }
  match p1.current_sound_obj with
  | none => Res.fail p1 Err.attributeError
  | some h =>
    ⟨{ p1 with state := "stop", external_stop_call := false },
      [Ev.stopH h.hid], none⟩

/-- `AudioPlayer.seek`: delegates to the current handle
(`AttributeError` on `None`). -/
def seek (position : ℚ) (p : Player) : Res :=
  match p.current_sound_obj with
  | none => Res.fail p Err.attributeError
  | some h => Res.mk' p [Ev.seekH h.hid position]

/-- The state written by `_jump_to_index`'s `except IndexError` handler:
index `-1`, current handle `None`. -/
def loop_reset (p : Player) : Player :=
  { p with queue_progress_index := -1, current_sound_obj := none }

/-- `AudioPlayer._jump_to_index` with the recursive `play` call in the
`except IndexError` branch abstracted as `playFn`.  The `try` block sets
the index, then fetches `self._queue[index]`; on `IndexError` the index
becomes `-1`, the current handle `None`, and with the loop flag set
`self.play()` runs.  (The transient index assignment before the failed
fetch is folded into the two outcomes: the handler overwrites it before
any other statement can observe it.) -/
def jump_to_index_aux (playFn : Player → Res) (index : Int) (p : Player) :
    Res :=
  match pyGet p.queue index with
  | some h =>
    Res.pure
      { p with queue_progress_index := index, current_sound_obj := some h }
  | none =>
    if p.loop then playFn (loop_reset p) else Res.pure (loop_reset p)

/-- The tail of `AudioPlayer.play`: `self._current_sound_obj.play()`
(`AttributeError` on `None`) followed by `self._state = "play"`. -/
def play_body (q : Player) : Res :=
  match q.current_sound_obj with
  | none => Res.fail q Err.attributeError
  | some h => ⟨{ q with state := "play" }, [Ev.playH h.hid], none⟩

/-- `AudioPlayer.play` with explicit recursion fuel: if no current handle,
jump to index 0 (which may recursively re-enter `play` on the loop-around
path); then play the current handle and set the `"play"` state. -/
def play : Nat → Player → Res
  | 0, p => Res.fail p Err.recursionError
  | fuel + 1, p =>
    (if p.current_sound_obj.isNone then jump_to_index_aux (play fuel) 0 p
     else Res.pure p).then play_body

/-- `AudioPlayer._jump_to_index` proper. -/
def jump_to_index (fuel : Nat) (index : Int) (p : Player) : Res :=
  jump_to_index_aux (play fuel) index p

/-- `AudioPlayer.skip_to_next`. -/
def skip_to_next (fuel : Nat)
    (play_immediately stop_current_playback restart_audio_position : Bool)
    (p : Player) : Res :=
  (((if stop_current_playback then stop p else Res.pure p).then
      (fun q => jump_to_index fuel (q.queue_progress_index + 1) q)).then
      (fun q => if restart_audio_position then seek 0 q else Res.pure q)).then
      (fun q => if play_immediately then play fuel q else Res.pure q)

/-- `_utils.normalize_index`, parametrised by the sequence length. -/
def normalize_index (len : Nat) (index : Int) : Except Err Int :=
  if index < 0 then
    if (len : Int) < |index| then Except.error Err.indexError
    else Except.ok ((len : Int) + index)
  else
    if (len : Int) - 1 < index then Except.error Err.indexError
    else Except.ok index

/-- `AudioPlayer.skip_to_previous`: the `normalize_index` call is evaluated
before entering `_jump_to_index`, so its `IndexError` propagates uncaught. -/
def skip_to_previous (fuel : Nat)
    (play_immediately stop_current_playback restart_audio_position : Bool)
    (p : Player) : Res :=
  (((if stop_current_playback then stop p else Res.pure p).then
      (fun q =>
        match normalize_index q.queue.length (q.queue_progress_index - 1) with
        | Except.error e => Res.fail q e
        | Except.ok i => jump_to_index fuel i q)).then
      (fun q => if restart_audio_position then seek 0 q else Res.pure q)).then
      (fun q => if play_immediately then play fuel q else Res.pure q)

/-- `AudioPlayer._cancel_estimation` (the `on_stop` handler): cancel the
clock if estimation is enabled; if the stop was not an external `stop()`
call, reset the estimate to 0 and `skip_to_next(stop_current_playback=False)`. -/
def cancel_estimation (fuel : Nat) (p : Player) : Res :=
  (if p.estimate_position then cancel_clock p else Res.pure p).then
    (fun q =>
      if q.external_stop_call then Res.pure q
      else
        (Res.pure (update_pos_estimate 0 q)).then
          (fun q2 => skip_to_next fuel true false true q2))

/-- `AudioPlayer.clear_queue`: empties the queue and nothing else. -/
def clear_queue (p : Player) : Player :=
  { p with queue := [] }

/-- `AudioPlayer.unload`: unloads the current handle if any, empties the
queue, sets the `"queue empty"` state.  Neither `_current_sound_obj` nor
`_queue_progress_index` is reset. -/
def unload (p : Player) : Res :=
  match p.current_sound_obj with
  | none => Res.mk' { p with queue := [], state := "queue empty" } []
  | some h =>
    Res.mk' { p with queue := [], state := "queue empty" } [Ev.unloadH h.hid]

/-- A Python value passed as a track reference (or stored as an alias
value): a pre-loaded handle, a string, a `pathlib.Path`, an integer, or
`None`.  The last two stand for values outside the declared allowed set. -/
inductive PyVal
  | snd (h : Sound)
  | strV (s : String)
  | pathV (s : String)
  | intV (n : Int)
  | noneV
deriving DecidableEq, Repr

/-- Python `str(value)` for the values above (`str` of a `Path` is its
path string, `str(None)` is `"None"`). -/
def pyStr : PyVal → String
  | PyVal.snd h => h.source
  | PyVal.strV s => s
  | PyVal.pathV s => s
  | PyVal.intV n => toString n
  | PyVal.noneV => "None"

/-- Python truthiness of the values above (handles and `Path` objects are
always truthy). -/
def pyTruthy : PyVal → Bool
  | PyVal.snd _ => true
  | PyVal.strV s => !s.isEmpty
  | PyVal.pathV _ => true
  | PyVal.intV n => n != 0
  | PyVal.noneV => false

/-- `SoundTypeConversion.is_allowed`: raises `TypeError` unless the value
is a `str`, `Path` or `Sound` instance. -/
def sound_type_is_allowed : PyVal → Option Err
  | PyVal.snd _ => none
  | PyVal.strV _ => none
  | PyVal.pathV _ => none
  | _ => some Err.typeError

/-- `SoundTypeConversion.as_str`: a handle's `source`, otherwise
`str(sound)` — note: no type check is performed. -/
def as_str : PyVal → String
  | PyVal.snd h => h.source
  | v => pyStr v

/-- `SoundTypeConversion.as_sound_obj`: a handle is returned unchanged;
anything else is passed through `str` to `SoundLoader.load`, which is the
external decode engine (`loader`) and may return no handle.  No
`is_allowed` check is performed on this path. -/
def as_sound_obj (loader : String → Option Sound) : PyVal → Option Sound
  | PyVal.snd h => some h
  | v => loader (as_str v)

/-- `AudioPlayer.get_alias` over the class-level alias table. -/
def get_alias (aliases : List (PyVal × PyVal)) (k : PyVal) : Option PyVal :=
  aliases.lookup k

/-- The alias-resolution step at the top of `AudioPlayer.load`'s loop:
unless aliases are ignored, a registered value replaces the argument —
but only when that value is truthy (`if found_alias:`). -/
def resolve_ref (aliases : List (PyVal × PyVal)) (ignore_aliases : Bool)
    (a : PyVal) : PyVal :=
  if ignore_aliases then a
  else
    match get_alias aliases a with
    | some v => if pyTruthy v then v else a
    | none => a

/-- The `for audio_file in args` loop of `AudioPlayer.load`: resolve the
alias (unless ignored, and only when the stored value is truthy), convert
via `as_sound_obj`, configure (apply the player volume; the event bindings
are the `begin_estimation` / `cancel_estimation` handlers) and append.
Configuring `None` (a failed external load) raises an `AttributeError`,
leaving the earlier appends in place. -/
def load_items (loader : String → Option Sound)
    (aliases : List (PyVal × PyVal)) (ignore_aliases : Bool) :
    List PyVal → Player → Res
  | [], p => Res.pure p
  | a :: rest, p =>
    match as_sound_obj loader (resolve_ref aliases ignore_aliases a) with
    | none => Res.fail p Err.attributeError
    | some h =>
      load_items loader aliases ignore_aliases rest
        { p with queue := p.queue ++ [{ h with volume := p.volume }] }

/-- `AudioPlayer.load`: optionally clear the queue first, run the loading
loop, and — only if no exception escaped — set the state to
`"queue loaded"` whenever the queue is non-empty. -/
def load (loader : String → Option Sound) (aliases : List (PyVal × PyVal))
    (clear_previous_queue ignore_aliases : Bool) (args : List PyVal)
    (p : Player) : Res :=
  (load_items loader aliases ignore_aliases args
      (if clear_previous_queue then { p with queue := [] } else p)).then
    (fun q =>
      Res.pure (if q.queue.isEmpty then q else { q with state := "queue loaded" }))

/-- `AudioPlayer.__init__`: the field initialisation order matters —
`self.load(*queue)` runs before `self._state = "queue empty"`, so the
`"queue loaded"` state written by `load` is overwritten, and the clock
event and current handle are reset afterwards. -/
def mkPlayer (loader : String → Option Sound)
    (aliases : List (PyVal × PyVal)) (queueArgs : List PyVal) (volume : ℚ)
    (loop estimate_position : Bool) (interval : ℚ) : Res :=
  let base : Player :=
    { external_stop_call := false
      queue_progress_index := -1
      queue := []
      volume := volume
      loop := loop
      estimate_position := estimate_position
      interval := interval
      pos_estimate := 0
      state := ""
      clock_event := false
      current_sound_obj := none }
  (load loader aliases false false queueArgs base).then
    (fun q =>
      Res.pure { q with pos_estimate := 0, state := "queue empty",
                        clock_event := false, current_sound_obj := none })

/-- `AudioPlayer.__iter__` (as the list it yields):
`self._queue[self._queue_progress_index + 1:]`. -/
def iter_remaining (p : Player) : List Sound :=
  pySliceFrom p.queue (p.queue_progress_index + 1)

/-- `AudioPlayer.__len__`. -/
def len_remaining (p : Player) : Nat :=
  (pySliceFrom p.queue (p.queue_progress_index + 1)).length

/-- `AudioPlayer.__contains__`. -/
def contains_remaining (item : Sound) (p : Player) : Bool :=
  (pySliceFrom p.queue (p.queue_progress_index + 1)).contains item

/-- The `volume` property setter: the range guard is Python's chained
comparison `0 > new_volume > 1`, i.e. `0 > v ∧ v > 1`; when it does not
fire, the volume is stored and written through to every queued handle. -/
def set_volume (new_volume : ℚ) (p : Player) : Res :=
  if 0 > new_volume ∧ new_volume > 1 then Res.fail p Err.valueError
  else
    Res.pure
      { p with volume := new_volume,
               queue := p.queue.map (fun h => { h with volume := new_volume }) }

/-- Decimal digits of a natural number, as Python `str(n)` renders them. -/
def natChars (n : Nat) : List Char := (Nat.repr n).toList

/-- Modelled from the spec and Python's standard library: the minute and
second fields of `str(datetime.timedelta(...))` are zero-padded to two
digits. -/
def pad2 (n : Nat) : List Char :=
  if n < 10 then '0' :: natChars n else natChars n

/-- Modelled from the spec: Python's `str(datetime.timedelta(seconds=s))`
for a non-negative integer `s` — `"H:MM:SS"` with unpadded hours, prefixed
by `"D day, "` / `"D days, "` when `s` reaches a day.  (`datetime` is the
standard library, not part of this repository.) -/
def timedeltaChars (s : Nat) : List Char :=
  if s / 86400 = 0 then
    natChars (s % 86400 / 3600) ++
      ':' :: (pad2 (s % 86400 % 3600 / 60) ++ ':' :: pad2 (s % 86400 % 60))
  else
    natChars (s / 86400) ++
      (if s / 86400 = 1 then " day, " else " days, ").toList ++
      (natChars (s % 86400 / 3600) ++
        ':' :: (pad2 (s % 86400 % 3600 / 60) ++
          ':' :: pad2 (s % 86400 % 60)))

/-- Python `str.split(':')` on a character list: always returns at least
one (possibly empty) field. -/
def splitCols : List Char → List (List Char)
  | [] => [[]]
  | c :: rest =>
    if c = ':' then [] :: splitCols rest
    else
      match splitCols rest with
      | [] => [[c]]
      | g :: gs => (c :: g) :: gs

/-- `_utils.humanize_duration` on integer seconds, producing the character
list of the returned string: below one hour (with leading-zero removal)
the zero hour field is dropped and a single-digit minute loses its pad
(`string_minutes[1]`); otherwise the `timedelta` rendering is returned
unchanged.  The three-way unpacking of `split(':')` always matches for
`s < 3600`. -/
def humanize_duration (s : Nat) (remove_leading_zero : Bool) : List Char :=
  if remove_leading_zero ∧ s < 3600 then
    match splitCols (timedeltaChars s) with
    | [_, string_minutes, string_seconds] =>
      (if s < 10 * 60 then (string_minutes.drop 1).take 1
       else string_minutes) ++ ':' :: string_seconds
    | _ => timedeltaChars s
  else timedeltaChars s

/-- Parsing a digit field back to a number (spec side of claim C9). -/
def parseNatChars (l : List Char) : Option Nat :=
  if l ≠ [] ∧ l.all Char.isDigit then
    some (l.foldl (fun a c => a * 10 + (c.toNat - 48)) 0)
  else none

/-- Parsing `M:S` or `H:M:S` back to total seconds (spec side of claim C9). -/
def parseHMS (l : List Char) : Option Nat :=
  match splitCols l with
  | [m, s] =>
    match parseNatChars m, parseNatChars s with
    | some m', some s' => some (m' * 60 + s')
    | _, _ => none
  | [h, m, s] =>
    match parseNatChars h, parseNatChars m, parseNatChars s with
    | some h', some m', some s' => some (h' * 3600 + m' * 60 + s')
    | _, _, _ => none
  | _ => none

/-! ### Fixtures and helper lemmas -/

/-- A demo external engine that resolves every source to a handle. -/
def demoLoader : String → Option Sound := fun s => some ⟨7, s, 1⟩

/-- A demo external engine that resolves nothing. -/
def noLoader : String → Option Sound := fun _ => none

/-- A freshly constructed player with an empty queue. -/
def freshPlayer : Player := (mkPlayer demoLoader [] [] 1 false true 1).p

/-- A fresh player with the loop flag enabled. -/
def freshLoopPlayer : Player := (mkPlayer demoLoader [] [] 1 true true 1).p

lemma Res.then_p_of_err {r : Res} (f : Player → Res) {e : Err}
    (h : r.err = some e) : r.then f = r := by
  unfold Res.then; rw [h]

lemma Res.then_of_ok {r : Res} (f : Player → Res) (h : r.err = none) :
    r.then f = ⟨(f r.p).p, r.evs ++ (f r.p).evs, (f r.p).err⟩ := by
  unfold Res.then; rw [h]

lemma pyGet_of_lt {l : List Sound} {i : Int} (h0 : 0 ≤ i)
    (hlt : i < (l.length : Int)) : ∃ x, pyGet l i = some x := by
  unfold pyGet
  rw [if_pos h0]
  have hn : i.toNat < l.length := by omega
  rcases List.get?_eq_get hn with h
  exact ⟨_, h⟩

lemma pyGet_lt_of_some {l : List Sound} {i : Int} {x : Sound} (h0 : 0 ≤ i)
    (h : pyGet l i = some x) : i < (l.length : Int) := by
  unfold pyGet at h
  rw [if_pos h0] at h
  by_contra hge
  rw [List.get?_eq_none.mpr (by omega)] at h
  exact Option.noConfusion h

lemma pyGet_none_of_ge {l : List Sound} {i : Int}
    (hge : (l.length : Int) ≤ i) : pyGet l i = none := by
  unfold pyGet
  rw [if_pos (by omega)]
  exact List.get?_eq_none.mpr (by omega)

/-- The ProgressIndex invariant of claim C2: `-1` or a valid queue index. -/
def index_invariant (p : Player) : Prop :=
  p.queue_progress_index = -1 ∨
    (0 ≤ p.queue_progress_index ∧
      p.queue_progress_index < (p.queue.length : Int))

instance (p : Player) : Decidable (index_invariant p) := by
  unfold index_invariant; infer_instance

lemma then_inv {r : Res} {f : Player → Res} (hr : index_invariant r.p)
    (hf : ∀ q, index_invariant q → index_invariant (f q).p) :
    index_invariant (r.then f).p := by
  cases h : r.err with
  | some e => rw [Res.then_p_of_err f h]; exact hr
  | none => rw [Res.then_of_ok f h]; exact hf r.p hr

lemma jump_aux_inv {playFn : Player → Res}
    (hPf : ∀ q, index_invariant q → index_invariant (playFn q).p)
    {i : Int} (h0 : 0 ≤ i) (p : Player) :
    index_invariant (jump_to_index_aux playFn i p).p := by
  unfold jump_to_index_aux
  cases h : pyGet p.queue i with
  | some x =>
    simp only [h]
    exact Or.inr ⟨h0, pyGet_lt_of_some h0 h⟩
  | none =>
    simp only [h]
    by_cases hl : p.loop = true
    · rw [if_pos hl]
      exact hPf _ (Or.inl rfl)
    · rw [if_neg hl]
      exact Or.inl rfl

lemma play_succ (f : Nat) (p : Player) :
    play (f + 1) p =
      (if p.current_sound_obj.isNone then jump_to_index_aux (play f) 0 p
       else Res.pure p).then play_body := rfl

lemma pyGet_nil (i : Int) : pyGet [] i = none := by
  unfold pyGet
  split
  · rfl
  split
  · rfl
  · rfl

lemma play_body_inv : ∀ {q : Player}, index_invariant q →
    index_invariant (play_body q).p := by
  intro q hq
  unfold play_body
  cases hc : q.current_sound_obj with
  | none => exact hq
  | some h => exact hq

lemma play_inv : ∀ (fuel : Nat) (p : Player), index_invariant p →
    index_invariant (play fuel p).p := by
  intro fuel
  induction fuel with
  | zero => intro p hp; exact hp
  | succ f ih =>
    intro p hp
    rw [play_succ]
    refine then_inv ?_ (fun q hq => play_body_inv hq)
    by_cases hc : p.current_sound_obj.isNone = true
    · rw [if_pos hc]; exact jump_aux_inv ih le_rfl p
    · rw [if_neg hc]; exact hp

lemma jump_inv (fuel : Nat) {i : Int} (h0 : 0 ≤ i) (p : Player) :
    index_invariant (jump_to_index fuel i p).p :=
  jump_aux_inv (play_inv fuel) h0 p

lemma stop_fields (p : Player) : (stop p).p.queue_progress_index =
    p.queue_progress_index ∧ (stop p).p.queue = p.queue := by
  unfold stop
  cases p.current_sound_obj <;> exact ⟨rfl, rfl⟩

lemma stop_inv {p : Player} (hp : index_invariant p) :
    index_invariant (stop p).p := by
  rcases stop_fields p with ⟨h1, h2⟩
  unfold index_invariant at hp ⊢
  rw [h1, h2]
  exact hp

lemma seek_p (pos : ℚ) (p : Player) : (seek pos p).p = p := by
  unfold seek
  cases p.current_sound_obj <;> rfl

lemma idx_ge_of_inv {p : Player} (hp : index_invariant p) :
    -1 ≤ p.queue_progress_index := by
  rcases hp with h | ⟨h, _⟩ <;> omega

lemma skip_to_next_inv (fuel : Nat) (b1 b2 b3 : Bool) {p : Player}
    (hp : index_invariant p) :
    index_invariant (skip_to_next fuel b1 b2 b3 p).p := by
  unfold skip_to_next
  refine then_inv (then_inv (then_inv ?_ ?_) ?_) ?_
  · by_cases h : b2 = true
    · rw [if_pos h]; exact stop_inv hp
    · rw [if_neg h]; exact hp
  · intro q hq
    exact jump_inv fuel (by have := idx_ge_of_inv hq; omega) q
  · intro q hq
    by_cases h : b3 = true
    · rw [if_pos h, seek_p]; exact hq
    · rw [if_neg h]; exact hq
  · intro q hq
    by_cases h : b1 = true
    · rw [if_pos h]; exact play_inv fuel q hq
    · rw [if_neg h]; exact hq

lemma normalize_index_nonneg {len : Nat} {i j : Int}
    (h : normalize_index len i = Except.ok j) : 0 ≤ j := by
  unfold normalize_index at h
  by_cases hneg : i < 0
  · rw [if_pos hneg] at h
    by_cases habs : (len : Int) < |i|
    · rw [if_pos habs] at h; exact Except.noConfusion h
    · rw [if_neg habs] at h
      cases h
      have : |i| = -i := abs_of_neg hneg
      omega
  · rw [if_neg hneg] at h
    by_cases hlt : (len : Int) - 1 < i
    · rw [if_pos hlt] at h; exact Except.noConfusion h
    · rw [if_neg hlt] at h; cases h; omega

lemma skip_to_previous_inv (fuel : Nat) (b1 b2 b3 : Bool) {p : Player}
    (hp : index_invariant p) :
    index_invariant (skip_to_previous fuel b1 b2 b3 p).p := by
  unfold skip_to_previous
  refine then_inv (then_inv (then_inv ?_ ?_) ?_) ?_
  · by_cases h : b2 = true
    · rw [if_pos h]; exact stop_inv hp
    · rw [if_neg h]; exact hp
  · intro q hq
    cases hn : normalize_index q.queue.length (q.queue_progress_index - 1) with
    | error e => exact hq
    | ok i => exact jump_inv fuel (normalize_index_nonneg hn) q
  · intro q hq
    by_cases h : b3 = true
    · rw [if_pos h, seek_p]; exact hq
    · rw [if_neg h]; exact hq
  · intro q hq
    by_cases h : b1 = true
    · rw [if_pos h]; exact play_inv fuel q hq
    · rw [if_neg h]; exact hq

lemma load_items_spec (loader : String → Option Sound)
    (aliases : List (PyVal × PyVal)) (ia : Bool) :
    ∀ (args : List PyVal) (p : Player), ∃ ext,
      (load_items loader aliases ia args p).p =
        { p with queue := p.queue ++ ext } := by
  intro args
  induction args with
  | nil => intro p; exact ⟨[], by simp [load_items, Res.pure]⟩
  | cons a rest ih =>
    intro p
    unfold load_items
    cases h : as_sound_obj loader (resolve_ref aliases ia a) with
    | none => exact ⟨[], by simp [Res.fail]⟩
    | some s =>
      rcases ih { p with queue := p.queue ++ [{ s with volume := p.volume }] }
        with ⟨ext, hext⟩
      exact ⟨{ s with volume := p.volume } :: ext, by simp [hext]⟩

lemma load_no_clear_inv (loader : String → Option Sound)
    (aliases : List (PyVal × PyVal)) (ia : Bool) (args : List PyVal)
    {p : Player} (hp : index_invariant p) :
    index_invariant (load loader aliases false ia args p).p := by
  unfold load
  rw [if_neg (by simp)]
  refine then_inv ?_ ?_
  · rcases load_items_spec loader aliases ia args p with ⟨ext, hext⟩
    rw [hext]
    unfold index_invariant at hp ⊢
    simp only [List.length_append]
    rcases hp with h | ⟨h1, h2⟩
    · exact Or.inl h
    · right; constructor; exact h1; push_cast; omega
  · intro q hq
    by_cases h : q.queue.isEmpty = true
    · rw [if_pos h]; exact hq
    · rw [if_neg h]; exact hq

/-- The public operations quantified over by claim C2. -/
inductive Op
  | opLoad (args : List PyVal) (clear_previous_queue ignore_aliases : Bool)
  | opClearQueue
  | opUnload
  | opPlay
  | opStop
  | opSkipToNext (b1 b2 b3 : Bool)
  | opSkipToPrevious (b1 b2 b3 : Bool)
deriving DecidableEq, Repr

/-- Run one public operation (the `Player` after an uncaught exception is
the object's state at the raise, which persists). -/
def run_op (fuel : Nat) (loader : String → Option Sound)
    (aliases : List (PyVal × PyVal)) : Op → Player → Res
  | Op.opLoad args c ia, p => load loader aliases c ia args p
  | Op.opClearQueue, p => Res.pure (clear_queue p)
  | Op.opUnload, p => unload p
  | Op.opPlay, p => play fuel p
  | Op.opStop, p => stop p
  | Op.opSkipToNext b1 b2 b3, p => skip_to_next fuel b1 b2 b3 p
  | Op.opSkipToPrevious b1 b2 b3, p => skip_to_previous fuel b1 b2 b3 p

/-- Run a sequence of public operations on the player object. -/
def run_ops (fuel : Nat) (loader : String → Option Sound)
    (aliases : List (PyVal × PyVal)) : List Op → Player → Player
  | [], p => p
  | o :: rest, p =>
    run_ops fuel loader aliases rest (run_op fuel loader aliases o p).p

/-- The operations that empty the queue without resetting the index. -/
def queue_clearing : Op → Bool
  | Op.opClearQueue => true
  | Op.opUnload => true
  | Op.opLoad _ c _ => c
  | _ => false

lemma stop_some {p : Player} {x : Sound} (hc : p.current_sound_obj = some x) :
    stop p = ⟨{ p with state := "stop", external_stop_call := false },
      [Ev.stopH x.hid], none⟩ := by
  unfold stop
  simp only [hc]

lemma seek_some (pos : ℚ) {p : Player} {x : Sound}
    (hc : p.current_sound_obj = some x) :
    seek pos p = ⟨p, [Ev.seekH x.hid pos], none⟩ := by
  unfold seek
  simp only [hc]
  rfl

lemma seek_none (pos : ℚ) {p : Player} (hc : p.current_sound_obj = none) :
    seek pos p = Res.fail p Err.attributeError := by
  unfold seek
  simp only [hc]

lemma play_some (fuel : Nat) {p : Player} {x : Sound}
    (hc : p.current_sound_obj = some x) :
    play (fuel + 1) p =
      ⟨{ p with state := "play" }, [Ev.playH x.hid], none⟩ := by
  rw [play_succ, if_neg (by simp [hc])]
  rw [Res.then_of_ok _ rfl]
  unfold play_body
  simp only [Res.pure, hc]
  rfl

lemma jump_some (fuel : Nat) {i : Int} {p : Player} {x : Sound}
    (hget : pyGet p.queue i = some x) :
    jump_to_index fuel i p =
      Res.pure
        { p with queue_progress_index := i, current_sound_obj := some x } := by
  unfold jump_to_index jump_to_index_aux
  simp only [hget]

lemma jump_none (fuel : Nat) {i : Int} {p : Player}
    (hget : pyGet p.queue i = none) :
    jump_to_index fuel i p =
      (if p.loop then play fuel (loop_reset p)
       else Res.pure (loop_reset p)) := by
  unfold jump_to_index jump_to_index_aux
  simp only [hget]

lemma then_lit (q : Player) (evs : List Ev) (f : Player → Res) :
    Res.then ⟨q, evs, none⟩ f = ⟨(f q).p, evs ++ (f q).evs, (f q).err⟩ := rfl

lemma pure_then (q : Player) (f : Player → Res) :
    (Res.pure q).then f = f q := rfl

lemma skip_advance (fuel : Nat) (q : Player) (x : Sound)
    (hget : pyGet q.queue (q.queue_progress_index + 1) = some x) :
    skip_to_next (fuel + 1) true false true q =
      ⟨{ q with queue_progress_index := q.queue_progress_index + 1,
                current_sound_obj := some x, state := "play" },
        [Ev.seekH x.hid 0, Ev.playH x.hid], none⟩ := by
  unfold skip_to_next
  have e1 : (if (false = true) then stop q else Res.pure q) = Res.pure q := rfl
  rw [e1, pure_then]
  simp [jump_some (fuel + 1) hget, pure_then, then_lit, seek, play_succ,
    play_body, Res.pure, Res.mk', Res.then]

/-! ### Claim C2 -/

/-- Claim C2 counterexample: the sequence load-one-track, play, clear_queue
leaves ProgressIndex = 0 while the queue is empty, so after this sequence
of engine operations the ProgressIndex is neither -1 nor a valid index into
the current Queue. -/
theorem c2_counterexample :
    ¬ index_invariant
        (run_ops 5 demoLoader []
          [Op.opLoad [PyVal.strV "a.mp3"] false false, Op.opPlay,
            Op.opClearQueue] freshPlayer) := by decide

/-- Claim C2 (amended): after any sequence of the engine operations that
contains no queue-clearing operation (clear_queue, unload, or load with
clear_previous_queue), the ProgressIndex is either -1 or a valid index into
the current Queue; the queue-clearing operations empty the queue without
resetting the ProgressIndex, which breaks the invariant whenever the index
has advanced past -1. -/
theorem c2_progress_index_invariant (fuel : Nat)
    (loader : String → Option Sound) (aliases : List (PyVal × PyVal))
    (ops : List Op) (p : Player)
    (hops : ∀ o ∈ ops, queue_clearing o = false)
    (hp : index_invariant p) :
    index_invariant (run_ops fuel loader aliases ops p) := by
  induction ops generalizing p with
  | nil => exact hp
  | cons o rest ih =>
    have hoc : queue_clearing o = false := hops o (List.mem_cons_self o rest)
    show index_invariant
      (run_ops fuel loader aliases rest (run_op fuel loader aliases o p).p)
    refine ih _ (fun o' ho' => hops o' (List.mem_cons_of_mem o ho')) ?_
    cases o with
    | opLoad args c ia =>
      have hc : c = false := hoc
      subst hc
      exact load_no_clear_inv loader aliases ia args hp
    | opClearQueue => exact Bool.noConfusion hoc
    | opUnload => exact Bool.noConfusion hoc
    | opPlay => exact play_inv fuel p hp
    | opStop => exact stop_inv hp
    | opSkipToNext b1 b2 b3 => exact skip_to_next_inv fuel b1 b2 b3 hp
    | opSkipToPrevious b1 b2 b3 => exact skip_to_previous_inv fuel b1 b2 b3 hp

/-- Claim C2 witness: the amended invariant theorem applied to a concrete
operation sequence. -/
theorem c2_progress_index_invariant_witness :
    index_invariant
      (run_ops 5 demoLoader []
        [Op.opLoad [PyVal.strV "a.mp3", PyVal.strV "b.mp3"] false false,
          Op.opPlay, Op.opSkipToNext true true true, Op.opStop]
        freshPlayer) :=
  c2_progress_index_invariant 5 demoLoader []
    [Op.opLoad [PyVal.strV "a.mp3", PyVal.strV "b.mp3"] false false,
      Op.opPlay, Op.opSkipToNext true true true, Op.opStop]
    freshPlayer (by decide) (by decide)

/-! ### Claim C1 -/

/-- Claim C1: when the on-play-stopped handler runs with the external-stop
flag set (an explicit `stop()` call), it neither advances the queue nor
resets the position estimate; with the flag unset (natural end of track)
it resets the estimate to 0 and advances to the next track via
`skip_to_next(stop_current_playback=False)`, emitting no further stop on
the current handle. -/
theorem c1_stop_notification (fuel : Nat) (p : Player)
    (hclock : p.estimate_position = true → p.clock_event = true) :
    (p.external_stop_call = true →
        (cancel_estimation (fuel + 1) p).p.queue_progress_index =
            p.queue_progress_index ∧
          (cancel_estimation (fuel + 1) p).p.current_sound_obj =
            p.current_sound_obj ∧
          (cancel_estimation (fuel + 1) p).p.pos_estimate =
            p.pos_estimate) ∧
    (p.external_stop_call = false →
        -1 ≤ p.queue_progress_index →
        p.queue_progress_index + 1 < (p.queue.length : Int) →
        (cancel_estimation (fuel + 1) p).p.pos_estimate = 0 ∧
          (cancel_estimation (fuel + 1) p).p.queue_progress_index =
            p.queue_progress_index + 1 ∧
          ∀ i, Ev.stopH i ∉ (cancel_estimation (fuel + 1) p).evs) := by
  have h0 : ∃ evs0,
      (if p.estimate_position then cancel_clock p else Res.pure p) =
          ⟨p, evs0, none⟩ ∧
        ∀ i, Ev.stopH i ∉ evs0 := by
    cases hep : p.estimate_position with
    | true =>
      refine ⟨[Ev.clockCancel], ?_, by intro i; simp⟩
      rw [if_pos rfl]
      unfold cancel_clock
      rw [if_pos (hclock hep)]
      rfl
    | false => exact ⟨[], by rw [if_neg (by simp)]; rfl, by intro i; simp⟩
  obtain ⟨evs0, he0, hstop0⟩ := h0
  unfold cancel_estimation
  rw [he0, then_lit]
  constructor
  · intro hflag
    simp [hflag, Res.pure]
  · intro hflag h1 h2
    obtain ⟨x, hx⟩ := pyGet_of_lt (by omega) h2
    have hskip := skip_advance fuel (update_pos_estimate 0 p) x hx
    rw [if_neg (by simp [hflag])]
    rw [pure_then]
    rw [hskip]
    refine ⟨rfl, rfl, ?_⟩
    intro i
    simp only [List.mem_append]
    rintro (hmem | hmem)
    · exact hstop0 i hmem
    · simp at hmem

/-- A concrete two-track mid-playback player used by witnesses. -/
def twoTrackPlayer (flag : Bool) : Player :=
  { freshPlayer with
      queue := [⟨7, "a.mp3", 1⟩, ⟨7, "b.mp3", 1⟩],
      queue_progress_index := 0,
      current_sound_obj := some ⟨7, "a.mp3", 1⟩,
      clock_event := true,
      external_stop_call := flag }

/-- Claim C1 witness: the handler evaluated on a concrete two-track player
in both flag states. -/
theorem c1_stop_notification_witness :
    ((cancel_estimation 3 (twoTrackPlayer true)).p.pos_estimate =
        (twoTrackPlayer true).pos_estimate) ∧
      (cancel_estimation 3 (twoTrackPlayer false)).p.queue_progress_index =
        (twoTrackPlayer false).queue_progress_index + 1 :=
  ⟨((c1_stop_notification 2 (twoTrackPlayer true) (by decide)).1
      (by decide)).2.2,
    ((c1_stop_notification 2 (twoTrackPlayer false) (by decide)).2
      (by decide) (by decide) (by decide)).2.1⟩

lemma skip_at_end_noloop (fuel : Nat) (q : Player) (x : Sound)
    (hcur : q.current_sound_obj = some x)
    (hloop : q.loop = false)
    (hget : pyGet q.queue (q.queue_progress_index + 1) = none) :
    skip_to_next fuel true true true q =
      ⟨loop_reset { q with state := "stop", external_stop_call := false },
        [Ev.stopH x.hid], some Err.attributeError⟩ := by
  unfold skip_to_next
  have e0 : (if (true = true) then stop q else Res.pure q) = stop q := rfl
  rw [e0, stop_some hcur, then_lit]
  simp [jump_none, pure_then, then_lit, hget, hloop, seek, Res.then,
    Res.pure, Res.mk', Res.fail, loop_reset]

lemma skip_at_end_loop (fuel : Nat) (q : Player) (x y : Sound)
    (hcur : q.current_sound_obj = some x)
    (hloop : q.loop = true)
    (hget : pyGet q.queue (q.queue_progress_index + 1) = none)
    (hget0 : pyGet q.queue 0 = some y) :
    skip_to_next (fuel + 1) true true true q =
      ⟨{ q with queue_progress_index := 0, current_sound_obj := some y,
                state := "play", external_stop_call := false },
        [Ev.stopH x.hid, Ev.playH y.hid, Ev.seekH y.hid 0, Ev.playH y.hid],
        none⟩ := by
  unfold skip_to_next
  have e0 : (if (true = true) then stop q else Res.pure q) = stop q := rfl
  rw [e0, stop_some hcur, then_lit]
  simp [jump_none, jump_to_index_aux, play_succ, play_body, pure_then,
    then_lit, hget, hget0, hloop, seek, Res.then, Res.pure, Res.mk',
    Res.fail, loop_reset]

/-- Claim C3: calling `skip_to_next` (with its default arguments) when the
progress index is the last index of a non-empty queue: with the loop flag
unset it leaves ProgressIndex = -1 and the current handle `None`; with the
loop flag set it ends up playing index 0 (ProgressIndex 0, handle = first
queued track, `"play"` state, a play effect on that track). -/
theorem c3_skip_last (fuel : Nat) (p : Player) (x : Sound)
    (hcur : p.current_sound_obj = some x)
    (hidx : p.queue_progress_index = (p.queue.length : Int) - 1)
    (hne : p.queue ≠ []) :
    (p.loop = false →
        (skip_to_next (fuel + 1) true true true p).p.queue_progress_index =
            -1 ∧
          (skip_to_next (fuel + 1) true true true p).p.current_sound_obj =
            none) ∧
    (p.loop = true →
        ∃ y, p.queue.get? 0 = some y ∧
          (skip_to_next (fuel + 1) true true true p).p.queue_progress_index =
              0 ∧
            (skip_to_next (fuel + 1) true true true p).p.current_sound_obj =
              some y ∧
            (skip_to_next (fuel + 1) true true true p).p.state = "play" ∧
            Ev.playH y.hid ∈ (skip_to_next (fuel + 1) true true true p).evs)
    := by
  have hget : pyGet p.queue (p.queue_progress_index + 1) = none := by
    apply pyGet_none_of_ge
    omega
  constructor
  · intro hloop
    rw [skip_at_end_noloop (fuel + 1) p x hcur hloop hget]
    exact ⟨rfl, rfl⟩
  · intro hloop
    have hlen : (0 : Int) < (p.queue.length : Int) := by
      have := List.length_pos.mpr hne
      omega
    obtain ⟨y, hy⟩ := pyGet_of_lt le_rfl hlen
    have hy' : p.queue.get? 0 = some y := by
      unfold pyGet at hy
      rw [if_pos le_rfl] at hy
      exact hy
    refine ⟨y, hy', ?_⟩
    rw [skip_at_end_loop fuel p x y hcur hloop hget hy]
    exact ⟨rfl, rfl, rfl, by simp⟩

/-- A one-track player whose progress index sits at the last index. -/
def oneTrackEnd : Player :=
  { freshPlayer with
      queue := [⟨7, "a.mp3", 1⟩],
      queue_progress_index := 0,
      current_sound_obj := some ⟨7, "a.mp3", 1⟩ }

/-- The same end-of-queue player with the loop flag enabled. -/
def oneTrackEndLoop : Player := { oneTrackEnd with loop := true }

/-- Claim C3 witness: the end-of-queue `skip_to_next` evaluated on concrete
one-track players, with the loop flag unset and set. -/
theorem c3_skip_last_witness :
    ((skip_to_next 3 true true true oneTrackEnd).p.queue_progress_index =
          -1 ∧
        (skip_to_next 3 true true true oneTrackEnd).p.current_sound_obj =
          none) ∧
      (∃ y, oneTrackEndLoop.queue.get? 0 = some y ∧
        (skip_to_next 3 true true true
              oneTrackEndLoop).p.queue_progress_index = 0 ∧
          (skip_to_next 3 true true true
              oneTrackEndLoop).p.current_sound_obj = some y ∧
          (skip_to_next 3 true true true oneTrackEndLoop).p.state = "play" ∧
          Ev.playH y.hid ∈ (skip_to_next 3 true true true
              oneTrackEndLoop).evs) :=
  ⟨(c3_skip_last 2 oneTrackEnd ⟨7, "a.mp3", 1⟩ (by decide) (by decide)
        (by decide)).1 (by decide),
    (c3_skip_last 2 oneTrackEndLoop ⟨7, "a.mp3", 1⟩ (by decide) (by decide)
        (by decide)).2 (by decide)⟩

/-- Claim C5 (code bug): the volume setter's range guard is the Python
chained comparison `0 > new_volume > 1`, which is unsatisfiable, so *no*
value is ever rejected: every write — including 1.5 and -0.1 — goes
through, mutating the stored volume and every queued handle's volume,
contradicting the `raise ValueError("volume can only be from 0-1")` the
guard was meant to trigger. -/
theorem c5_volume_guard_dead (v : ℚ) (p : Player) :
    (set_volume v p).err = none ∧ (set_volume v p).p.volume = v ∧
      (set_volume v p).p.queue.map Sound.volume =
        p.queue.map (fun _ => v) := by
  unfold set_volume
  rw [if_neg (by rintro ⟨h1, h2⟩; linarith)]
  refine ⟨rfl, rfl, ?_⟩
  simp only [Res.pure, List.map_map]
  rfl

/-- Claim C5: the dead guard evaluated at the claim's concrete inputs: a
loaded player accepts volume 1.5 and -0.1 without any error, and the
stored volume is mutated each time. -/
theorem c5_volume_guard_dead_witness :
    (set_volume (3/2) freshPlayer).err = none ∧
      (set_volume (3/2) freshPlayer).p.volume = 3/2 ∧
      (set_volume (-1/10) freshPlayer).err = none ∧
      (set_volume (-1/10) freshPlayer).p.volume = -1/10 :=
  ⟨(c5_volume_guard_dead (3/2) freshPlayer).1,
    (c5_volume_guard_dead (3/2) freshPlayer).2.1,
    (c5_volume_guard_dead (-1/10) freshPlayer).1,
    (c5_volume_guard_dead (-1/10) freshPlayer).2.1⟩

/-! ### Claim C4 -/

/-- The result of load-one-track, play, unload on a fresh player. -/
def unloadedPlayerRes : Res :=
  unload
    (play 1
      (load demoLoader [] false false [PyVal.strV "a.mp3"] freshPlayer).p).p

/-- Claim C4 counterexample: after an unload that released handle 7 and
emptied the queue, `play()` signals no error at all — it invokes play on
the previously unloaded handle 7, because `unload` never clears
`_current_sound_obj`. -/
theorem c4_counterexample :
    unloadedPlayerRes.evs = [Ev.unloadH 7] ∧
      unloadedPlayerRes.p.queue = [] ∧
      (play 1 unloadedPlayerRes.p).err = none ∧
      (play 1 unloadedPlayerRes.p).evs = [Ev.playH 7] := by decide

lemma unload_p (p : Player) :
    (unload p).p = { p with queue := [], state := "queue empty" } := by
  unfold unload
  cases p.current_sound_obj <;> rfl

/-- Claim C4 (amended): after `unload()` the queue is empty, and `play()`
raises an attribute error only when no handle is current (fresh player,
loop flag unset) — when a handle was current before the unload, `play()`
silently invokes play on that unloaded handle and signals no error. -/
theorem c4_play_after_unload (fuel : Nat) (p : Player) :
    (unload p).p.queue = [] ∧
      (p.current_sound_obj = none → p.loop = false →
        (play (fuel + 1) (unload p).p).err = some Err.attributeError ∧
          (play (fuel + 1) (unload p).p).evs = []) ∧
      (∀ h, p.current_sound_obj = some h →
        (play (fuel + 1) (unload p).p).err = none ∧
          (play (fuel + 1) (unload p).p).evs = [Ev.playH h.hid]) := by
  have hu : (unload p).p = { p with queue := [], state := "queue empty" } :=
    unload_p p
  refine ⟨by rw [hu], ?_, ?_⟩
  · intro hc hloop
    rw [hu]
    constructor <;>
      simp [play_succ, jump_to_index_aux, pyGet_nil, hc, hloop, play_body,
        pure_then, then_lit, Res.then, Res.pure, Res.fail, loop_reset]
  · intro h hc
    rw [hu]
    have hcU : ({ p with queue := ([] : List Sound), state := "queue empty" } : Player).current_sound_obj = some h := hc
    rw [play_some fuel hcU]
    exact ⟨rfl, rfl⟩

/-- Claim C4 witness: the amended statement evaluated on a fresh player
(attribute error, nothing played) and on the counterexample player (play
invoked on the unloaded handle, no error). -/
theorem c4_play_after_unload_witness :
    ((play 1 (unload freshPlayer).p).err = some Err.attributeError ∧
        (play 1 (unload freshPlayer).p).evs = []) ∧
      ((play 1 (unload unloadedPlayerRes.p).p).err = none ∧
        (play 1 (unload unloadedPlayerRes.p).p).evs = [Ev.playH 7]) :=
  ⟨(c4_play_after_unload 0 freshPlayer).2.1 (by decide) (by decide),
    (c4_play_after_unload 0 unloadedPlayerRes.p).2.2 ⟨7, "a.mp3", 1⟩
      (by decide)⟩

/-! ### Claim C6 -/

/-- Claim C6 counterexample: `load` of the invalid-typed reference `None`
(outside the allowed set, as the gate's own `is_allowed` confirms) raises
an `AttributeError` from configuring the failed external load — not a type
error naming the allowed set: `as_sound_obj` never performs the
`is_allowed` check. -/
theorem c6_counterexample :
    (load noLoader [] false false [PyVal.noneV] freshPlayer).err =
        some Err.attributeError ∧
      (load noLoader [] false false [PyVal.noneV] freshPlayer).err ≠
        some Err.typeError ∧
      (load noLoader [] false false [PyVal.noneV] freshPlayer).p.queue =
        [] ∧
      sound_type_is_allowed PyVal.noneV = some Err.typeError := by decide

/-- Claim C6 (amended): `load` applies no allowed-set check: a value
outside the allowed set is coerced to its string form and handed to the
external loader; when the loader yields no handle, configuring the result
raises an attribute error (and nothing is appended), and when it yields a
handle, that handle is appended — no type error is ever raised on this
path (only `register`, via `is_allowed`, raises it). -/
theorem c6_load_no_type_error (loader : String → Option Sound) (p : Player)
    (v : PyVal) (hv : sound_type_is_allowed v = some Err.typeError) :
    as_sound_obj loader v = loader (pyStr v) ∧
      (loader (pyStr v) = none →
        (load loader [] false false [v] p).err = some Err.attributeError ∧
          (load loader [] false false [v] p).p.queue = p.queue) ∧
      (∀ h, loader (pyStr v) = some h →
        (load loader [] false false [v] p).err = none ∧
          (load loader [] false false [v] p).p.queue =
            p.queue ++ [{ h with volume := p.volume }]) := by
  have hform : as_sound_obj loader v = loader (pyStr v) ∧
      resolve_ref [] false v = v := by
    cases v with
    | snd h => exact Option.noConfusion hv
    | strV s => exact Option.noConfusion hv
    | pathV s => exact Option.noConfusion hv
    | intV n => exact ⟨rfl, rfl⟩
    | noneV => exact ⟨rfl, rfl⟩
  refine ⟨hform.1, ?_, ?_⟩
  · intro hload
    have hnone : as_sound_obj loader (resolve_ref [] false v) = none := by
      rw [hform.2, hform.1, hload]
    constructor <;>
      simp [load, load_items, hnone, then_lit, pure_then, Res.then,
        Res.pure, Res.fail]
  · intro h hload
    have hsome : as_sound_obj loader (resolve_ref [] false v) = some h := by
      rw [hform.2, hform.1, hload]
    constructor <;>
      simp [load, load_items, hsome, then_lit, pure_then, Res.then,
        Res.pure, Res.fail]

/-- Claim C6 witness: the amended statement evaluated at the reference
`None` with an external loader that resolves nothing. -/
theorem c6_load_no_type_error_witness :
    (load noLoader [] false false [PyVal.noneV] freshPlayer).err =
        some Err.attributeError ∧
      (load noLoader [] false false [PyVal.noneV]
          freshPlayer).p.queue = freshPlayer.queue :=
  (c6_load_no_type_error noLoader freshPlayer PyVal.noneV (by decide)).2.1
    (by decide)

/-! ### Claim C7 -/

/-- A fresh player after loading one track and starting playback. -/
def playingPlayer : Player :=
  (play 1
    (load demoLoader [] false false [PyVal.strV "a.mp3"] freshPlayer).p).p

/-- Claim C7 counterexample: on a player in the `"play"` state with a
non-empty queue, `load` with zero references does not leave the state
unchanged — it resets it to `"queue loaded"`, because the state update is
guarded only by the queue being non-empty. -/
theorem c7_counterexample :
    playingPlayer.state = "play" ∧
      (load demoLoader [] false false [] playingPlayer).err = none ∧
      (load demoLoader [] false false [] playingPlayer).p.state =
        "queue loaded" := by decide

lemma load_items_ok (loader : String → Option Sound)
    (aliases : List (PyVal × PyVal)) (ia : Bool) :
    ∀ (args : List PyVal) (p : Player),
      (∀ a ∈ args,
        (as_sound_obj loader (resolve_ref aliases ia a)).isSome = true) →
      ∃ ext : List Sound, ext.length = args.length ∧
        load_items loader aliases ia args p =
          Res.pure { p with queue := p.queue ++ ext } := by
  intro args
  induction args with
  | nil =>
    intro p _
    exact ⟨[], rfl, by simp [load_items, Res.pure]⟩
  | cons a rest ih =>
    intro p hall
    obtain ⟨s, hs⟩ := Option.isSome_iff_exists.mp
      (hall a (List.mem_cons_self a rest))
    obtain ⟨ext, hlen, heq⟩ :=
      ih { p with queue := p.queue ++ [{ s with volume := p.volume }] }
        (fun a' ha' => hall a' (List.mem_cons_of_mem a ha'))
    refine ⟨{ s with volume := p.volume } :: ext, by simp [hlen], ?_⟩
    unfold load_items
    simp only [hs, heq]
    simp

/-- Claim C7 (amended): loading N ≥ 1 resolvable references appends
exactly N handles and sets the state to `"queue loaded"` (a fresh player
then reports length N); loading zero references leaves the state
unchanged only when the queue is empty — with a non-empty queue, `load`
resets the state to `"queue loaded"` even for zero references. -/
theorem c7_load_appends (loader : String → Option Sound)
    (aliases : List (PyVal × PyVal)) (ia : Bool) (args : List PyVal)
    (p : Player)
    (hall : ∀ a ∈ args,
      (as_sound_obj loader (resolve_ref aliases ia a)).isSome = true) :
    (load loader aliases false ia args p).err = none ∧
      (load loader aliases false ia args p).p.queue.length =
        p.queue.length + args.length ∧
      (args ≠ [] →
        (load loader aliases false ia args p).p.state = "queue loaded") ∧
      (args = [] → p.queue = [] →
        (load loader aliases false ia args p).p.state = p.state) ∧
      (p.queue = [] → p.queue_progress_index = -1 →
        len_remaining (load loader aliases false ia args p).p =
          args.length) := by
  obtain ⟨ext, hlen, heq⟩ := load_items_ok loader aliases ia args p hall
  unfold load
  have e0 : (if (false = true) then { p with queue := ([] : List Sound) }
      else p) = p := rfl
  rw [e0, heq, pure_then]
  refine ⟨rfl, ?_, ?_, ?_, ?_⟩
  · cases hq : (p.queue ++ ext).isEmpty <;>
      simp [hq, Res.pure, hlen]
  · intro hargs
    have hne : (p.queue ++ ext).isEmpty = false := by
      have : ext ≠ [] := by
        intro hcontra
        rw [hcontra] at hlen
        exact hargs (List.length_eq_zero.mp hlen.symm)
      simp [List.isEmpty_iff, this]
    simp [hne, Res.pure]
  · intro hargs hpq
    have hext : ext = [] := by
      rw [hargs] at hlen
      exact List.length_eq_zero.mp hlen
    subst hext
    simp [hpq, Res.pure]
  · intro hpq hpi
    have hstate : ∀ (q : Player),
        (Res.pure (if q.queue.isEmpty then q
          else { q with state := "queue loaded" })).p.queue = q.queue ∧
        (Res.pure (if q.queue.isEmpty then q
          else { q with state := "queue loaded" })).p.queue_progress_index =
          q.queue_progress_index := by
      intro q
      cases hq : q.queue.isEmpty <;> simp [hq, Res.pure]
    rcases hstate { p with queue := p.queue ++ ext } with ⟨hq1, hq2⟩
    unfold len_remaining
    rw [hq1, hq2]
    simp only [hpi, hpq]
    unfold pySliceFrom
    rw [if_pos (by omega)]
    simp [hlen]

/-- Claim C7 witness: the amended statement evaluated at two concrete
references on a fresh player. -/
theorem c7_load_appends_witness :
    (load demoLoader [] false false
        [PyVal.strV "a.mp3", PyVal.strV "b.mp3"] freshPlayer).err = none ∧
      (load demoLoader [] false false
          [PyVal.strV "a.mp3", PyVal.strV "b.mp3"]
          freshPlayer).p.queue.length = freshPlayer.queue.length + 2 :=
  ⟨(c7_load_appends demoLoader [] false
      [PyVal.strV "a.mp3", PyVal.strV "b.mp3"] freshPlayer (by decide)).1,
    (c7_load_appends demoLoader [] false
      [PyVal.strV "a.mp3", PyVal.strV "b.mp3"] freshPlayer (by decide)).2.1⟩

/-! ### Claim C8 -/

/-- Claim C8: iterating the engine yields exactly the unplayed tail of the
queue strictly after the current progress index, and the `len`/`in`
queries operate over that same tail. -/
theorem c8_iteration_tail (p : Player) (x : Sound)
    (hidx : -1 ≤ p.queue_progress_index) :
    iter_remaining p =
        p.queue.drop (p.queue_progress_index + 1).toNat ∧
      len_remaining p =
        (p.queue.drop (p.queue_progress_index + 1).toNat).length ∧
      (contains_remaining x p = true ↔
        x ∈ p.queue.drop (p.queue_progress_index + 1).toNat) := by
  have hs : pySliceFrom p.queue (p.queue_progress_index + 1) =
      p.queue.drop (p.queue_progress_index + 1).toNat := by
    unfold pySliceFrom
    rw [if_pos (by omega)]
  refine ⟨hs, ?_, ?_⟩
  · unfold len_remaining; rw [hs]
  · unfold contains_remaining
    rw [hs]
    exact List.elem_iff

/-- Claim C8 witness: the tail view evaluated on a concrete mid-queue
player state. -/
theorem c8_iteration_tail_witness :
    iter_remaining
        (run_ops 5 demoLoader []
          [Op.opLoad [PyVal.strV "a.mp3", PyVal.strV "b.mp3"] false false,
            Op.opPlay] freshPlayer) =
      (run_ops 5 demoLoader []
          [Op.opLoad [PyVal.strV "a.mp3", PyVal.strV "b.mp3"] false false,
            Op.opPlay] freshPlayer).queue.drop 1 :=
  (c8_iteration_tail _ ⟨7, "a.mp3", 1⟩ (by decide)).1

/-! ### Claim C10 -/

/-- `play` never runs out of recursion budget: the fuel-indexed result is
`RecursionError` for every fuel amount. -/
def play_diverges (p : Player) : Prop :=
  ∀ fuel, (play fuel p).err = some Err.recursionError

lemma play_diverges_of_empty_loop :
    ∀ (fuel : Nat) (p : Player), p.queue = [] → p.loop = true →
      p.current_sound_obj = none →
      (play fuel p).err = some Err.recursionError := by
  intro fuel
  induction fuel with
  | zero => intro p _ _ _; rfl
  | succ f ih =>
    intro p hq hl hc
    rw [play_succ, if_pos (by rw [hc]; rfl)]
    unfold jump_to_index_aux
    have hnone : pyGet p.queue 0 = none := by rw [hq]; exact pyGet_nil 0
    simp only [hnone]
    rw [if_pos hl]
    have hrec := ih (loop_reset p) hq hl rfl
    rw [Res.then_p_of_err play_body hrec]
    exact hrec

/-- Claim C10 counterexample: for a player constructed with an empty queue
and the loop flag enabled, `play()` never reaches a base case — the mutual
recursion between `play` and the index-jump recovery exhausts every
recursion budget (Python's `RecursionError`), so `play()` does not
terminate for this reachable state. -/
theorem c10_counterexample : play_diverges freshLoopPlayer := by
  intro fuel
  exact play_diverges_of_empty_loop fuel freshLoopPlayer (by decide)
    (by decide) (by decide)

/-- Claim C10 (amended): `play()` terminates for every state whose queue is
non-empty or whose loop flag is unset — any positive recursion budget
suffices, so only the empty-queue-with-loop state diverges. -/
theorem c10_play_terminates (fuel : Nat) (p : Player)
    (h : p.queue ≠ [] ∨ p.loop = false) :
    (play (fuel + 1) p).err ≠ some Err.recursionError := by
  rw [play_succ]
  cases hc : p.current_sound_obj with
  | some h0 =>
    rw [if_neg (by simp [hc])]
    rw [Res.then_of_ok _ rfl]
    unfold play_body
    simp only [Res.pure, hc]
    decide
  | none =>
    rw [if_pos (by simp [hc])]
    unfold jump_to_index_aux
    cases hget : pyGet p.queue 0 with
    | some x =>
      simp only [hget]
      rw [Res.then_of_ok _ rfl]
      unfold play_body
      simp only [Res.pure]
      decide
    | none =>
      simp only [hget]
      have hq : p.queue = [] := by
        cases hql : p.queue with
        | nil => rfl
        | cons a l =>
          exfalso
          have ha : pyGet (a :: l) 0 = some a := by
            unfold pyGet
            rw [if_pos le_rfl]
            rfl
          rw [hql, ha] at hget
          exact Option.noConfusion hget
      have hlp : p.loop = false := by
        rcases h with h | h
        · exact absurd hq h
        · exact h
      rw [if_neg (by simp [hlp])]
      rw [Res.then_of_ok _ rfl]
      unfold play_body
      simp [Res.pure, Res.fail, loop_reset]

/-- Claim C10 witness: a player with one loaded track terminates (no
recursion-budget exhaustion) even with the loop flag enabled. -/
theorem c10_play_terminates_witness :
    (play 1
        (run_ops 5 demoLoader []
          [Op.opLoad [PyVal.strV "a.mp3"] false false]
          freshLoopPlayer)).err ≠ some Err.recursionError :=
  c10_play_terminates 0
    (run_ops 5 demoLoader [] [Op.opLoad [PyVal.strV "a.mp3"] false false]
      freshLoopPlayer)
    (Or.inl (by decide))

/-! ### Claim C9 -/

lemma hour_digits {h : Nat} (hh : h < 24) :
    (':' ∉ natChars h) ∧ parseNatChars (natChars h) = some h :=
  (show ∀ x : Fin 24,
      (':' ∉ natChars x.1) ∧ parseNatChars (natChars x.1) = some x.1
    by decide) ⟨h, hh⟩

lemma pad2_digits {m : Nat} (hm : m < 60) :
    (':' ∉ pad2 m) ∧ parseNatChars (pad2 m) = some m :=
  (show ∀ x : Fin 60,
      (':' ∉ pad2 x.1) ∧ parseNatChars (pad2 x.1) = some x.1
    by decide) ⟨m, hm⟩

lemma single_digits {m : Nat} (hm : m < 10) :
    ((pad2 m).drop 1).take 1 = natChars m ∧
      parseNatChars (natChars m) = some m ∧ (':' ∉ natChars m) :=
  (show ∀ x : Fin 10,
      ((pad2 x.1).drop 1).take 1 = natChars x.1 ∧
        parseNatChars (natChars x.1) = some x.1 ∧ (':' ∉ natChars x.1)
    by decide) ⟨m, hm⟩

lemma splitCols_cons (c : Char) (rest : List Char) :
    splitCols (c :: rest) =
      if c = ':' then [] :: splitCols rest
      else
        match splitCols rest with
        | [] => [[c]]
        | g :: gs => (c :: g) :: gs := rfl

lemma splitCols_append (a : List Char) (r : List Char) (ha : ':' ∉ a) :
    splitCols (a ++ ':' :: r) = a :: splitCols r := by
  induction a with
  | nil =>
    show splitCols (':' :: r) = [] :: splitCols r
    rw [splitCols_cons, if_pos rfl]
  | cons c cs ih =>
    have hc : ¬ c = ':' := fun h => ha (by rw [h]; exact List.mem_cons_self _ _)
    have ha' : ':' ∉ cs := fun h => ha (List.mem_cons_of_mem _ h)
    show splitCols (c :: (cs ++ ':' :: r)) = (c :: cs) :: splitCols r
    rw [splitCols_cons, if_neg hc, ih ha']

lemma splitCols_single (a : List Char) (ha : ':' ∉ a) :
    splitCols a = [a] := by
  induction a with
  | nil => rfl
  | cons c cs ih =>
    have hc : ¬ c = ':' := fun h => ha (by rw [h]; exact List.mem_cons_self _ _)
    have ha' : ':' ∉ cs := fun h => ha (List.mem_cons_of_mem _ h)
    show splitCols (c :: cs) = [c :: cs]
    rw [splitCols_cons, if_neg hc, ih ha']

lemma splitCols_two (a b : List Char) (ha : ':' ∉ a) (hb : ':' ∉ b) :
    splitCols (a ++ ':' :: b) = [a, b] := by
  rw [splitCols_append a b ha, splitCols_single b hb]

lemma splitCols_three (a b c : List Char) (ha : ':' ∉ a) (hb : ':' ∉ b)
    (hc : ':' ∉ c) :
    splitCols (a ++ ':' :: (b ++ ':' :: c)) = [a, b, c] := by
  rw [splitCols_append a _ ha, splitCols_two b c hb hc]

/-- Claim C9 counterexample: at s = 86400 the rendered duration is
`"1 day, 0:00:00"`, whose first colon field is not numeric, so parsing it
back as H:M:S fails — the round-trip does not hold for every non-negative
integer. -/
theorem c9_counterexample :
    parseHMS (humanize_duration 86400 true) = none := by decide

/-- Claim C9 (amended): for every s < 86400 (under one day), parsing
`humanize_duration s` back as hours:minutes:seconds (or minutes:seconds
when only two fields are present) yields exactly s total seconds. -/
theorem c9_roundtrip_under_day (s : Nat) (hs : s < 86400) :
    parseHMS (humanize_duration s true) = some s := by
  have hmod : s % 86400 = s := Nat.mod_eq_of_lt hs
  have hbm := pad2_digits (show s % 3600 / 60 < 60 by omega)
  have hbs := pad2_digits (show s % 60 < 60 by omega)
  by_cases h36 : s < 3600
  · have htd : timedeltaChars s =
        ['0'] ++ ':' :: (pad2 (s % 3600 / 60) ++ ':' :: pad2 (s % 60)) := by
      unfold timedeltaChars
      rw [if_pos (by omega), hmod]
      rw [Nat.div_eq_of_lt h36]
      rfl
    unfold humanize_duration
    rw [if_pos ⟨rfl, h36⟩, htd,
      splitCols_three ['0'] _ _ (by decide) hbm.1 hbs.1]
    simp only []
    by_cases h600 : s < 10 * 60
    · rw [if_pos h600]
      have hsd := single_digits (show s % 3600 / 60 < 10 by omega)
      rw [hsd.1]
      unfold parseHMS
      rw [splitCols_two _ _ hsd.2.2 hbs.1]
      simp only [hsd.2.1, hbs.2]
      rw [Option.some_inj]
      omega
    · rw [if_neg h600]
      unfold parseHMS
      rw [splitCols_two _ _ hbm.1 hbs.1]
      simp only [hbm.2, hbs.2]
      rw [Option.some_inj]
      omega
  · have hbh := hour_digits (show s / 3600 < 24 by omega)
    have htd : timedeltaChars s = natChars (s / 3600) ++
        ':' :: (pad2 (s % 3600 / 60) ++ ':' :: pad2 (s % 60)) := by
      unfold timedeltaChars
      rw [if_pos (by omega), hmod]
    unfold humanize_duration
    rw [if_neg (by rintro ⟨h1, h2⟩; exact h36 h2), htd]
    unfold parseHMS
    rw [splitCols_three _ _ _ hbh.1 hbm.1 hbs.1]
    simp only [hbh.2, hbm.2, hbs.2]
    rw [Option.some_inj]
    omega

/-- Claim C9 witness: the amended round-trip evaluated at the concrete
duration 3725 seconds (1:02:05). -/
theorem c9_roundtrip_under_day_witness :
    parseHMS (humanize_duration 3725 true) = some 3725 :=
  c9_roundtrip_under_day 3725 (by decide)

end KAP
